import Mathlib

/-!
Shallow embedding of the route-recording state machine and persistence
contract of `src/components/BoundaryWatersMap.jsx` (Boundary Waters Route
Tracker).  The component's React state hooks become an explicit state
record; each event handler becomes a pure state-transition function; the
browser's `JSON.parse` is modelled as a total JSON text parser returning
`Except` (a JavaScript exception becomes `Except.error`).  Coordinates are
JavaScript numbers on which the program performs no arithmetic; they are
modelled as `Rat` (the decimal reading of a JSON number literal).
-/

/-- A waypoint: the pair `[latlng.lat, latlng.lng]` pushed by
`handleAddWaypoint`. -/
abbrev Waypoint := Rat × Rat

/-- A route object, as created in `useState` / `handleSaveRoute`:
fields `id`, `name`, `color`, `description`, `waypoints` in that order. -/
structure Route where
  id : Nat
  name : String
  color : String
  description : String
  waypoints : List Waypoint
deriving DecidableEq, Repr

/-- The component state: the four `useState` hooks of `BoundaryWatersMap`
(`routes`, `currentRoute`, `isRecording`, `selectedRoute`).  As in the
source, `selectedRoute` holds a route object (or `null`). -/
structure AppState where
  routes : List Route
  currentRoute : Route
  isRecording : Bool
  selectedRoute : Option Route
deriving DecidableEq, Repr

/-- The hex digits used by `getRandomColor`. -/
def colorLetters : List Char :=
  ['0', '1', '2', '3', '4', '5', '6', '7', '8', '9', 'A', 'B', 'C', 'D', 'E', 'F']

/-- `getRandomColor`: builds `'#'` followed by six pseudo-random hex digits.
The six `Math.floor(Math.random() * 16)` draws are modelled as an input
list of indices. -/
def getRandomColor (draws : List (Fin 16)) : String :=
  String.mk ('#' :: draws.map (fun i => colorLetters.getD i.val '0'))

/-- The initial component state at mount: `routes = []`,
`currentRoute = ⟨1, "Route 1", getRandomColor(), "", []⟩`,
`isRecording = false`, `selectedRoute = null`.  The pseudo-random initial
color is the parameter `c₀`. -/
def initState (c₀ : String) : AppState :=
  { routes := []
    currentRoute :=
      { id := 1, name := "Route 1", color := c₀, description := "", waypoints := [] }
    isRecording := false
    selectedRoute := none }

/-- `handleAddWaypoint(latlng)`: if `isRecording`, append
`[latlng.lat, latlng.lng]` to `currentRoute.waypoints`; otherwise do
nothing. -/
def handleAddWaypoint (latlng : Waypoint) (s : AppState) : AppState :=
  if s.isRecording then
    { s with currentRoute :=
        { s.currentRoute with waypoints := s.currentRoute.waypoints ++ [latlng] } }
  else s

/-- `handleSaveRoute()`: when `currentRoute.waypoints.length < 2`, raise the
alert and return with no state change; otherwise append `currentRoute` to
`routes`, replace `currentRoute` by a fresh route with incremented id,
default name, fresh pseudo-random color (parameter `newColor`), empty
description and waypoints, and set `isRecording` to `false`.  The second
component of the result is the alert message shown, if any. -/
def handleSaveRoute (newColor : String) (s : AppState) : AppState × Option String :=
  if s.currentRoute.waypoints.length < 2 then
    (s, some "A route must have at least 2 waypoints!")
  else
    ({ s with
        routes := s.routes ++ [s.currentRoute]
        currentRoute :=
          { id := s.currentRoute.id + 1
            name := "Route " ++ toString (s.currentRoute.id + 1)
            color := newColor
            description := ""
            waypoints := [] }
        isRecording := false },
      none)

/-- `handleDeleteRoute(routeId)`: filter `routes` to those whose id differs
from `routeId`, and set `selectedRoute` to `null`. -/
def handleDeleteRoute (routeId : Nat) (s : AppState) : AppState :=
  { s with
      routes := s.routes.filter (fun route => route.id != routeId)
      selectedRoute := none }

/-- The two editable fields of the in-progress route (the `name` attribute
of the input / textarea handled by `handleRouteInfoChange`). -/
inductive RouteField where
  | name
  | description
deriving DecidableEq, Repr

/-- `handleRouteInfoChange(e)`: set the named field of `currentRoute` to
the new value. -/
def handleRouteInfoChange (f : RouteField) (v : String) (s : AppState) : AppState :=
  match f with
  | .name => { s with currentRoute := { s.currentRoute with name := v } }
  | .description => { s with currentRoute := { s.currentRoute with description := v } }

/-- The record/stop toggle button: `onClick={() => setIsRecording(!isRecording)}`. -/
def toggleRecording (s : AppState) : AppState :=
  { s with isRecording := !s.isRecording }

/-- Clicking a rendered polyline or a list entry:
`setSelectedRoute(route)`. -/
def selectRoute (r : Route) (s : AppState) : AppState :=
  { s with selectedRoute := some r }

/-!
## Persistence contract

The persist effect writes `JSON.stringify(routes)` under the fixed key
`'boundaryWatersRoutes'`; the load effect reads that key and, when a value
is present (JavaScript truthiness: non-null and non-empty), feeds it to
`JSON.parse` and installs the result as `routes` — with no exception
handling and no shape validation.

`JsValue` is the JavaScript value produced by `JSON.parse` / consumed by
`JSON.stringify`.  JSON number literals are modelled by their exact decimal
value as a `Rat`.
-/

/-- The fixed persistence key. -/
def storageKey : String := "boundaryWatersRoutes"

/-- A JSON value (the shape of what `JSON.parse` returns). -/
inductive JsValue where
  | null
  | bool (b : Bool)
  | num (q : Rat)
  | str (s : String)
  | arr (elems : List JsValue)
  | obj (fields : List (String × JsValue))

/-- How `JSON.stringify` serializes one waypoint `[lat, lng]`. -/
def waypointToJs (w : Waypoint) : JsValue :=
  .arr [.num w.1, .num w.2]

/-- How `JSON.stringify` serializes one route object: its enumerable own
properties in insertion order (`id`, `name`, `color`, `description`,
`waypoints`). -/
def routeToJs (r : Route) : JsValue :=
  .obj
    [("id", .num r.id),
     ("name", .str r.name),
     ("color", .str r.color),
     ("description", .str r.description),
     ("waypoints", .arr (r.waypoints.map waypointToJs))]

/-- How `JSON.stringify` serializes the saved collection: the array of its
route records in order.  This is the value written (as text) under
`storageKey` by the persist effect. -/
def routesToJs (rs : List Route) : JsValue :=
  .arr (rs.map routeToJs)

/-- Decode a list of JSON values elementwise, failing if any element
fails. -/
def decodeList {α : Type} (dec : JsValue → Option α) : List JsValue → Option (List α)
  | [] => some []
  | v :: vs =>
    match dec v, decodeList dec vs with
    | some a, some rest => some (a :: rest)
    | _, _ => none

/-- Reading a parsed JSON value back as a waypoint: a two-element array of
numbers. -/
def jsToWaypoint : JsValue → Option Waypoint
  | .arr [.num a, .num b] => some (a, b)
  | _ => none

/-- Reading a parsed JSON value back as a route record, through the fields
the component accesses (`id`, `name`, `color`, `description`,
`waypoints`), in the order `JSON.stringify` wrote them. -/
def jsToRoute : JsValue → Option Route
  | .obj
      [("id", .num i),
       ("name", .str n),
       ("color", .str c),
       ("description", .str d),
       ("waypoints", .arr ws)] =>
    if i.den = 1 ∧ 0 ≤ i.num then
      match decodeList jsToWaypoint ws with
      | some wps =>
        some { id := i.num.toNat, name := n, color := c, description := d, waypoints := wps }
      | none => none
    else none
  | _ => none

/-- Reading a parsed JSON value back as the saved collection. -/
def jsToRoutes : JsValue → Option (List Route)
  | .arr vs => decodeList jsToRoute vs
  | _ => none

/-- JSON whitespace. -/
def isJsonWs (c : Char) : Bool :=
  c = ' ' || c = '\n' || c = '\r' || c = '\t'

/-- Drop leading JSON whitespace. -/
def skipWs : List Char → List Char
  | [] => []
  | c :: cs => if isJsonWs c then skipWs cs else c :: cs

/-- Split a leading run of decimal digits from the input. -/
def takeDigits : List Char → List Char × List Char
  | [] => ([], [])
  | c :: cs =>
    if c.isDigit then
      let (ds, rest) := takeDigits cs
      (c :: ds, rest)
    else ([], c :: cs)

/-- Numeric value of a run of decimal digits. -/
def digitsVal (ds : List Char) : Nat :=
  ds.foldl (fun a c => a * 10 + (c.toNat - 48)) 0

/-- Scale a decimal value by a power of ten (the exponent part of a JSON
number). -/
def applyExp (q : Rat) (e : Int) : Rat :=
  if 0 ≤ e then q * (10 : Rat) ^ e.toNat else q / (10 : Rat) ^ (-e).toNat

/-- Parse the optional exponent suffix of a JSON number. -/
def parseExpPart (base : Rat) (cs : List Char) : Except String (Rat × List Char) :=
  let (esign, cs1) :=
    match cs with
    | '+' :: rest => ((1 : Int), rest)
    | '-' :: rest => ((-1 : Int), rest)
    | _ => ((1 : Int), cs)
  let (expDs, cs2) := takeDigits cs1
  if expDs.isEmpty then .error "json: invalid number"
  else .ok (applyExp base (esign * (digitsVal expDs : Int)), cs2)

/-- Combine sign, integer digits and fraction digits, then look for an
exponent. -/
def finishNumber (neg : Bool) (intDs fracDs : List Char) (cs : List Char) :
    Except String (Rat × List Char) :=
  let mag : Rat :=
    (digitsVal intDs : Rat) + (digitsVal fracDs : Rat) / (10 : Rat) ^ fracDs.length
  let base : Rat := if neg then -mag else mag
  match cs with
  | 'e' :: rest => parseExpPart base rest
  | 'E' :: rest => parseExpPart base rest
  | _ => .ok (base, cs)

/-- Parse a JSON number literal into its exact decimal value. -/
def parseNumber (cs : List Char) : Except String (Rat × List Char) :=
  let (neg, cs1) :=
    match cs with
    | '-' :: rest => (true, rest)
    | _ => (false, cs)
  let (intDs, cs2) := takeDigits cs1
  if intDs.isEmpty then .error "json: invalid number"
  else
    match cs2 with
    | '.' :: rest =>
      let (fracDs, cs3) := takeDigits rest
      if fracDs.isEmpty then .error "json: invalid number"
      else finishNumber neg intDs fracDs cs3
    | _ => finishNumber neg intDs [] cs2

/-- Hexadecimal digit test. -/
def isHexChar (c : Char) : Bool :=
  ('0' ≤ c && c ≤ '9') || ('a' ≤ c && c ≤ 'f') || ('A' ≤ c && c ≤ 'F')

/-- Value of a hexadecimal digit (0 when not one; callers test first). -/
def hexVal (c : Char) : Nat :=
  if '0' ≤ c && c ≤ '9' then c.toNat - 48
  else if 'a' ≤ c && c ≤ 'f' then c.toNat - 87
  else if 'A' ≤ c && c ≤ 'F' then c.toNat - 55
  else 0

/-- Parse the body of a JSON string literal after the opening quote,
with the escape sequences `JSON.parse` accepts; `acc` holds the decoded
characters in reverse. -/
def parseStringBody (acc : List Char) : List Char → Except String (String × List Char)
  | [] => .error "json: unterminated string"
  | '"' :: cs => .ok (String.mk acc.reverse, cs)
  | '\\' :: cs =>
    match cs with
    | [] => .error "json: unterminated string"
    | e :: cs2 =>
      if e = '"' then parseStringBody ('"' :: acc) cs2
      else if e = '\\' then parseStringBody ('\\' :: acc) cs2
      else if e = '/' then parseStringBody ('/' :: acc) cs2
      else if e = 'b' then parseStringBody ('\x08' :: acc) cs2
      else if e = 'f' then parseStringBody ('\x0c' :: acc) cs2
      else if e = 'n' then parseStringBody ('\n' :: acc) cs2
      else if e = 'r' then parseStringBody ('\r' :: acc) cs2
      else if e = 't' then parseStringBody ('\t' :: acc) cs2
      else if e = 'u' then
        match cs2 with
        | h1 :: h2 :: h3 :: h4 :: cs3 =>
          if isHexChar h1 && isHexChar h2 && isHexChar h3 && isHexChar h4 then
            let n := ((hexVal h1 * 16 + hexVal h2) * 16 + hexVal h3) * 16 + hexVal h4
            parseStringBody (Char.ofNat n :: acc) cs3
          else .error "json: invalid escape"
        | _ => .error "json: unterminated string"
      else .error "json: invalid escape"
  | c :: cs => parseStringBody (c :: acc) cs

mutual

/-- Parse one JSON value at the head of the input (the grammar accepted by
`JSON.parse`).  `fuel` bounds the recursion; the entry point `jsonParse`
supplies more than any input of its length can consume. -/
def parseVal : Nat → List Char → Except String (JsValue × List Char)
  | 0, _ => .error "json: out of fuel"
  | fuel + 1, cs =>
    match skipWs cs with
    | [] => .error "json: unexpected end of input"
    | c :: rest =>
      if c = 'n' then
        match rest with
        | 'u' :: 'l' :: 'l' :: rest2 => .ok (.null, rest2)
        | _ => .error "json: unexpected token"
      else if c = 't' then
        match rest with
        | 'r' :: 'u' :: 'e' :: rest2 => .ok (.bool true, rest2)
        | _ => .error "json: unexpected token"
      else if c = 'f' then
        match rest with
        | 'a' :: 'l' :: 's' :: 'e' :: rest2 => .ok (.bool false, rest2)
        | _ => .error "json: unexpected token"
      else if c = '"' then
        match parseStringBody [] rest with
        | .ok (s, rest2) => .ok (.str s, rest2)
        | .error e => .error e
      else if c = '[' then
        match skipWs rest with
        | ']' :: rest2 => .ok (.arr [], rest2)
        | rest2 =>
          match parseElems fuel rest2 with
          | .ok (vs, rest3) => .ok (.arr vs, rest3)
          | .error e => .error e
      else if c = '\x7b' then
        match skipWs rest with
        | '\x7d' :: rest2 => .ok (.obj [], rest2)
        | rest2 =>
          match parseMembers fuel rest2 with
          | .ok (fs, rest3) => .ok (.obj fs, rest3)
          | .error e => .error e
      else if c = '-' || c.isDigit then
        match parseNumber (c :: rest) with
        | .ok (q, rest2) => .ok (.num q, rest2)
        | .error e => .error e
      else .error "json: unexpected token"

/-- Parse the comma-separated elements of a nonempty JSON array, up to and
including the closing bracket. -/
def parseElems : Nat → List Char → Except String (List JsValue × List Char)
  | 0, _ => .error "json: out of fuel"
  | fuel + 1, cs =>
    match parseVal fuel cs with
    | .error e => .error e
    | .ok (v, rest) =>
      match skipWs rest with
      | ',' :: rest2 =>
        match parseElems fuel rest2 with
        | .ok (vs, rest3) => .ok (v :: vs, rest3)
        | .error e => .error e
      | ']' :: rest2 => .ok ([v], rest2)
      | _ => .error "json: expected comma or closing bracket"

/-- Parse the comma-separated members of a nonempty JSON object, up to and
including the closing brace. -/
def parseMembers : Nat → List Char → Except String (List (String × JsValue) × List Char)
  | 0, _ => .error "json: out of fuel"
  | fuel + 1, cs =>
    match skipWs cs with
    | '"' :: rest =>
      match parseStringBody [] rest with
      | .error e => .error e
      | .ok (k, rest2) =>
        match skipWs rest2 with
        | ':' :: rest3 =>
          match parseVal fuel rest3 with
          | .error e => .error e
          | .ok (v, rest4) =>
            match skipWs rest4 with
            | ',' :: rest5 =>
              match parseMembers fuel rest5 with
              | .ok (fs, rest6) => .ok ((k, v) :: fs, rest6)
              | .error e => .error e
            | '\x7d' :: rest5 => .ok ([(k, v)], rest5)
            | _ => .error "json: expected comma or closing brace"
        | _ => .error "json: expected colon"
    | _ => .error "json: expected property name"

end

/-- Model of the browser's `JSON.parse`: parse the whole text as one JSON
value; a JavaScript `SyntaxError` raised by `JSON.parse` is
`Except.error`. -/
def jsonParse (s : String) : Except String JsValue :=
  match parseVal (2 * s.length + 2) s.toList with
  | .error e => .error e
  | .ok (v, rest) =>
    match skipWs rest with
    | [] => .ok v
    | _ => .error "json: unexpected trailing characters"

/-- The load effect (`useEffect` on mount): read `storageKey` from the
store; when the stored value is absent or empty (JavaScript falsiness of
the `localStorage.getItem` result), `routes` stays `[]`; otherwise the
result of `JSON.parse` on it becomes `routes`, with no exception handling —
an `Except.error` models an uncaught `SyntaxError` escaping the effect. -/
def loadRoutes (stored : Option String) : Except String JsValue :=
  match stored with
  | none => .ok (routesToJs [])
  | some s => if s = "" then .ok (routesToJs []) else jsonParse s

/-- The persist effect (`useEffect` on `routes`): the serialized collection
is written wholesale under `storageKey`; the stored value is a function of
`routes` alone. -/
def persistedValue (s : AppState) : JsValue :=
  routesToJs s.routes

/-!
## Sessions: traces of Route Store operations

A session starts at the mount state and applies the store's event handlers
in response to discrete user events.  The pseudo-random colors drawn by
`getRandomColor` are inputs of the events that consume them.
-/

/-- One user-driven Route Store operation. -/
inductive Op where
  | toggle
  | click (p : Waypoint)
  | save (newColor : String)
  | delete (i : Nat)
  | select (r : Route)
  | info (f : RouteField) (v : String)

/-- The state transition of one operation (alerts discarded). -/
def step : Op → AppState → AppState
  | .toggle, s => toggleRecording s
  | .click p, s => handleAddWaypoint p s
  | .save c, s => (handleSaveRoute c s).1
  | .delete i, s => handleDeleteRoute i s
  | .select r, s => selectRoute r s
  | .info f v, s => handleRouteInfoChange f v s

/-- Run a trace of operations from a state. -/
def run : List Op → AppState → AppState
  | [], s => s
  | op :: t, s => run t (step op s)

/-- The ids assigned to newly created in-progress routes by a trace starting
in state `s`, in order of assignment: a successful save (≥ 2 waypoints)
assigns `currentRoute.id + 1` to the fresh in-progress route; no other
operation creates a route. -/
def assignedIds : AppState → List Op → List Nat
  | _, [] => []
  | s, op :: t =>
    match op with
    | .save _ =>
      if s.currentRoute.waypoints.length < 2 then assignedIds (step op s) t
      else (s.currentRoute.id + 1) :: assignedIds (step op s) t
    | _ => assignedIds (step op s) t

/-- Deliver a sequence of map clicks. -/
def runClicks (ps : List Waypoint) (s : AppState) : AppState :=
  ps.foldl (fun st p => handleAddWaypoint p st) s

/-- Saved-collection invariant: every saved route has at least two
waypoints. -/
def RoutesInv (s : AppState) : Prop :=
  ∀ r ∈ s.routes, 2 ≤ r.waypoints.length

instance (s : AppState) : Decidable (RoutesInv s) := by
  unfold RoutesInv; infer_instance

/-!
## Concrete sample states (used by witnesses and counterexamples)
-/

/-- A saved route with two waypoints. -/
def sampleRoute : Route :=
  { id := 1, name := "Route 1", color := "#00FF00", description := ""
    waypoints := [((1 : Rat), (2 : Rat)), ((3 : Rat), (4 : Rat))] }

/-- A state with one saved route, which is selected, while idle. -/
def sampleState : AppState :=
  { routes := [sampleRoute]
    currentRoute :=
      { id := 2, name := "Route 2", color := "#112233", description := "", waypoints := [] }
    isRecording := false
    selectedRoute := some sampleRoute }

/-- A recording state whose in-progress route already has two waypoints. -/
def recordingState : AppState :=
  { routes := []
    currentRoute :=
      { id := 1, name := "Route 1", color := "#ABCDEF", description := "day one"
        waypoints := [((479 : Rat) / 10, (-918 : Rat) / 10), ((4791 : Rat) / 100, (-9181 : Rat) / 100)] }
    isRecording := true
    selectedRoute := none }

/-!
## Helper lemmas
-/

theorem handleAddWaypoint_routes (p : Waypoint) (s : AppState) :
    (handleAddWaypoint p s).routes = s.routes := by
  simp only [handleAddWaypoint]; split <;> rfl

theorem handleRouteInfoChange_routes (f : RouteField) (v : String) (s : AppState) :
    (handleRouteInfoChange f v s).routes = s.routes := by
  cases f <;> rfl

theorem handleSaveRoute_routes (c : String) (s : AppState) :
    (handleSaveRoute c s).1.routes =
      if s.currentRoute.waypoints.length < 2 then s.routes
      else s.routes ++ [s.currentRoute] := by
  simp only [handleSaveRoute]; split <;> rfl

theorem step_id_mono (op : Op) (s : AppState) :
    s.currentRoute.id ≤ (step op s).currentRoute.id := by
  cases op with
  | toggle => exact le_refl _
  | click p => simp only [step, handleAddWaypoint]; split <;> exact le_refl _
  | save c => simp only [step, handleSaveRoute]; split <;> simp
  | delete i => exact le_refl _
  | select r => exact le_refl _
  | info f v => cases f <;> exact le_refl _

theorem decodeList_map_some {α : Type} (dec : JsValue → Option α) (f : α → JsValue)
    (h : ∀ a, dec (f a) = some a) :
    ∀ l : List α, decodeList dec (l.map f) = some l
  | [] => rfl
  | a :: l => by
    simp only [List.map_cons, decodeList, h a, decodeList_map_some dec f h l]

theorem jsToWaypoint_waypointToJs (w : Waypoint) :
    jsToWaypoint (waypointToJs w) = some w := rfl

theorem jsToRoute_routeToJs (r : Route) : jsToRoute (routeToJs r) = some r := by
  simp only [routeToJs, jsToRoute,
    decodeList_map_some jsToWaypoint waypointToJs jsToWaypoint_waypointToJs]
  have hden : ((r.id : Nat) : Rat).den = 1 := Rat.den_natCast r.id
  have hnum : ((r.id : Nat) : Rat).num = (r.id : Int) := Rat.num_natCast r.id
  rw [if_pos ⟨hden, by rw [hnum]; exact Int.ofNat_nonneg r.id⟩]
  simp [hnum]

theorem assignedIds_spec : ∀ (t : List Op) (s : AppState),
    (∀ x ∈ assignedIds s t, s.currentRoute.id < x) ∧
      List.Pairwise (· < ·) (assignedIds s t) := by
  intro t
  induction t with
  | nil => intro s; simp [assignedIds]
  | cons op t ih =>
    intro s
    obtain ⟨ih1, ih2⟩ := ih (step op s)
    have hmono := step_id_mono op s
    cases op with
    | save c =>
      by_cases hlen : s.currentRoute.waypoints.length < 2
      · simp only [assignedIds, if_pos hlen]
        exact ⟨fun x hx => lt_of_le_of_lt hmono (ih1 x hx), ih2⟩
      · have hid : (step (Op.save c) s).currentRoute.id = s.currentRoute.id + 1 := by
          simp [step, handleSaveRoute, if_neg hlen]
        simp only [assignedIds, if_neg hlen]
        refine ⟨?_, ?_⟩
        · intro x hx
          rcases List.mem_cons.mp hx with h | h
          · omega
          · have hx2 := ih1 x h
            rw [hid] at hx2
            omega
        · refine List.Pairwise.cons ?_ ih2
          intro x hx
          have hx2 := ih1 x hx
          rw [hid] at hx2
          omega
    | toggle =>
      simp only [assignedIds]
      exact ⟨fun x hx => lt_of_le_of_lt hmono (ih1 x hx), ih2⟩
    | click p =>
      simp only [assignedIds]
      exact ⟨fun x hx => lt_of_le_of_lt hmono (ih1 x hx), ih2⟩
    | delete i =>
      simp only [assignedIds]
      exact ⟨fun x hx => lt_of_le_of_lt hmono (ih1 x hx), ih2⟩
    | select r =>
      simp only [assignedIds]
      exact ⟨fun x hx => lt_of_le_of_lt hmono (ih1 x hx), ih2⟩
    | info f v =>
      simp only [assignedIds]
      exact ⟨fun x hx => lt_of_le_of_lt hmono (ih1 x hx), ih2⟩

theorem runClicks_recording (ps : List Waypoint) :
    ∀ s : AppState, s.isRecording = true →
      (runClicks ps s).currentRoute.waypoints = s.currentRoute.waypoints ++ ps ∧
      (runClicks ps s).routes = s.routes ∧
      (runClicks ps s).isRecording = true := by
  induction ps with
  | nil => intro s h; exact ⟨by simp [runClicks], rfl, h⟩
  | cons p ps ih =>
    intro s h
    have hstep : handleAddWaypoint p s =
        { s with currentRoute :=
            { s.currentRoute with waypoints := s.currentRoute.waypoints ++ [p] } } := by
      simp [handleAddWaypoint, h]
    have hrun : runClicks (p :: ps) s = runClicks ps (handleAddWaypoint p s) := rfl
    rw [hrun, hstep]
    obtain ⟨h1, h2, h3⟩ := ih
      { s with currentRoute :=
          { s.currentRoute with waypoints := s.currentRoute.waypoints ++ [p] } } h
    exact ⟨by rw [h1]; simp, h2, h3⟩

/-!
## Claim theorems
-/

/-- C1: the claim says that for every possible stored string the load
operation terminates without raising and yields a saved collection, empty
when the string is absent or malformed.  The code violates this: the load
effect calls `JSON.parse` with no exception handling, so a malformed
stored string raises.  This theorem evaluates the load at the failing
input: with nothing stored the collection is empty, but with the malformed
string consisting of a single opening brace stored, the load raises a
deserialization error instead of yielding an empty collection. -/
theorem loadRoutes_raises_on_malformed :
    loadRoutes none = Except.ok (routesToJs []) ∧
    loadRoutes (some "\x7b") = Except.error "json: expected property name" :=
  ⟨rfl, rfl⟩

/-- C2 counterexample: deleting a nonexistent id is not a complete no-op.
In a state with one saved route (id 1, selected), deleting id 99 — an id
matching no saved route — changes the state: the selection pointer is
cleared. -/
theorem deleteRoute_absent_not_noop :
    (∀ r ∈ sampleState.routes, r.id ≠ 99) ∧
      handleDeleteRoute 99 sampleState ≠ sampleState := by
  decide

/-- C2 amended: for every state and every id that matches no saved route,
`deleteRoute(id)` raises no error and leaves the saved collection, the
in-progress route, and the recording flag unchanged — but it always sets
the selected-route pointer to none, even in this case. -/
theorem deleteRoute_absent_noop_except_selection (i : Nat) (s : AppState)
    (h : ∀ r ∈ s.routes, r.id ≠ i) :
    (handleDeleteRoute i s).routes = s.routes ∧
    (handleDeleteRoute i s).currentRoute = s.currentRoute ∧
    (handleDeleteRoute i s).isRecording = s.isRecording ∧
    (handleDeleteRoute i s).selectedRoute = none := by
  refine ⟨?_, rfl, rfl, rfl⟩
  simp only [handleDeleteRoute]
  rw [List.filter_eq_self]
  intro r hr
  simpa using h r hr

/-- C2 witness: deleting the absent id 99 from the sample state keeps the
saved collection, in-progress route and recording flag. -/
theorem deleteRoute_absent_noop_witness :
    (handleDeleteRoute 99 sampleState).routes = sampleState.routes ∧
    (handleDeleteRoute 99 sampleState).currentRoute = sampleState.currentRoute ∧
    (handleDeleteRoute 99 sampleState).isRecording = sampleState.isRecording ∧
    (handleDeleteRoute 99 sampleState).selectedRoute = none :=
  deleteRoute_absent_noop_except_selection 99 sampleState (by decide)

/-- C3: in every state whose in-progress route has fewer than 2 waypoints,
`saveRoute()` signals the blocking validation alert and performs no
mutation: the returned state is the input state unchanged (saved
collection, in-progress route, recording flag, selection), and hence the
persisted value is unchanged too. -/
theorem saveRoute_rejects_too_few (c : String) (s : AppState)
    (h : s.currentRoute.waypoints.length < 2) :
    handleSaveRoute c s = (s, some "A route must have at least 2 waypoints!") ∧
    persistedValue (handleSaveRoute c s).1 = persistedValue s := by
  have he : handleSaveRoute c s = (s, some "A route must have at least 2 waypoints!") := by
    simp only [handleSaveRoute, if_pos h]
  exact ⟨he, by rw [he]⟩

/-- C3 witness: saving at mount, where the in-progress route has 0
waypoints, alerts and changes nothing. -/
theorem saveRoute_rejects_too_few_witness :
    handleSaveRoute "#FF0000" (initState "#00AA00") =
      (initState "#00AA00", some "A route must have at least 2 waypoints!") :=
  (saveRoute_rejects_too_few "#FF0000" (initState "#00AA00") (by decide)).1

/-- C4: in every state whose in-progress route has at least 2 waypoints,
`saveRoute()` appends the in-progress route unchanged to the end of the
saved collection, replaces it by a fresh route whose id is the previous id
plus 1, whose name is the default name for that id, whose description and
waypoint sequence are empty, sets the recording state to idle, and raises
no alert. -/
theorem saveRoute_success (c : String) (s : AppState)
    (h : 2 ≤ s.currentRoute.waypoints.length) :
    (handleSaveRoute c s).1.routes = s.routes ++ [s.currentRoute] ∧
    (handleSaveRoute c s).1.currentRoute.id = s.currentRoute.id + 1 ∧
    (handleSaveRoute c s).1.currentRoute.name =
      "Route " ++ toString (s.currentRoute.id + 1) ∧
    (handleSaveRoute c s).1.currentRoute.description = "" ∧
    (handleSaveRoute c s).1.currentRoute.waypoints = ([] : List Waypoint) ∧
    (handleSaveRoute c s).1.isRecording = false ∧
    (handleSaveRoute c s).2 = none := by
  have hn : ¬ s.currentRoute.waypoints.length < 2 := by omega
  simp [handleSaveRoute, if_neg hn]

/-- C4 witness: saving the recording sample state (two waypoints, id 1)
appends that route and creates the fresh in-progress route with id 2. -/
theorem saveRoute_success_witness :
    (handleSaveRoute "#123456" recordingState).1.routes =
      recordingState.routes ++ [recordingState.currentRoute] ∧
    (handleSaveRoute "#123456" recordingState).1.currentRoute.id =
      recordingState.currentRoute.id + 1 :=
  ⟨(saveRoute_success "#123456" recordingState (by decide)).1,
    (saveRoute_success "#123456" recordingState (by decide)).2.1⟩

/-- C5: in every session — every trace of Route Store operations from the
mount state, whose in-progress route has id 1 — the mount id followed by
the ids assigned to newly created in-progress routes, in order of
assignment, is strictly increasing pairwise: each new id exceeds every id
previously assigned (deleted or not), and no id is ever reused. -/
theorem session_ids_strictly_increase (c₀ : String) (t : List Op) :
    List.Pairwise (· < ·)
      ((initState c₀).currentRoute.id :: assignedIds (initState c₀) t) :=
  List.Pairwise.cons (fun x hx => (assignedIds_spec t (initState c₀)).1 x hx)
    (assignedIds_spec t (initState c₀)).2

/-- C6: every Route Store operation preserves the invariant that each
route in the saved collection has a waypoint sequence of length at least
2; in particular a route is only appended to the collection when this
holds of it. -/
theorem routesInv_preserved (op : Op) (s : AppState) (h : RoutesInv s) :
    RoutesInv (step op s) := by
  cases op with
  | toggle => exact h
  | click p =>
    intro r hr
    rw [show (step (Op.click p) s) = handleAddWaypoint p s from rfl,
      handleAddWaypoint_routes] at hr
    exact h r hr
  | save c =>
    intro r hr
    rw [show (step (Op.save c) s) = (handleSaveRoute c s).1 from rfl,
      handleSaveRoute_routes] at hr
    by_cases hlen : s.currentRoute.waypoints.length < 2
    · rw [if_pos hlen] at hr
      exact h r hr
    · rw [if_neg hlen] at hr
      rcases List.mem_append.mp hr with h1 | h1
      · exact h r h1
      · have : r = s.currentRoute := by simpa using h1
        subst this
        omega
  | delete i =>
    intro r hr
    exact h r (List.mem_of_mem_filter hr)
  | select r => exact h
  | info f v =>
    intro r hr
    rw [show (step (Op.info f v) s) = handleRouteInfoChange f v s from rfl,
      handleRouteInfoChange_routes] at hr
    exact h r hr

/-- C6 witness: the invariant holds of the sample state (its one saved
route has two waypoints) and is preserved by a toggle. -/
theorem routesInv_preserved_witness : RoutesInv (step Op.toggle sampleState) :=
  routesInv_preserved Op.toggle sampleState (by decide)

/-- C7: while recording, a sequence of map clicks appends exactly its
coordinate pairs, in click order, to the end of the in-progress route's
waypoint sequence — so the length grows by the number of clicks — and
leaves every saved waypoint sequence unchanged; while idle, a map click
changes nothing at all. -/
theorem clicks_spec (ps : List Waypoint) (s : AppState) :
    (s.isRecording = true →
      (runClicks ps s).currentRoute.waypoints = s.currentRoute.waypoints ++ ps ∧
      (runClicks ps s).currentRoute.waypoints.length =
        s.currentRoute.waypoints.length + ps.length ∧
      (runClicks ps s).routes = s.routes) ∧
    (s.isRecording = false → ∀ p, handleAddWaypoint p s = s) := by
  constructor
  · intro h
    obtain ⟨h1, h2, _⟩ := runClicks_recording ps s h
    exact ⟨h1, by rw [h1]; simp, h2⟩
  · intro h p
    simp [handleAddWaypoint, h]

/-- C7 witness: one click in the recording sample state appends its
coordinate pair; a click in the idle sample state changes nothing. -/
theorem clicks_spec_witness :
    (runClicks [((5 : Rat), (6 : Rat))] recordingState).currentRoute.waypoints =
      recordingState.currentRoute.waypoints ++ [((5 : Rat), (6 : Rat))] ∧
    handleAddWaypoint ((7 : Rat), (8 : Rat)) sampleState = sampleState :=
  ⟨((clicks_spec [((5 : Rat), (6 : Rat))] recordingState).1 rfl).1,
    (clicks_spec [] sampleState).2 rfl ((7 : Rat), (8 : Rat))⟩

/-- C8: round-trip of the persistence contract: serializing any saved
collection as the persist effect writes it and then reading the result
back as route records reproduces an equal collection — same ids, names,
colors, descriptions and waypoint sequences in the same order. -/
theorem routes_roundtrip (rs : List Route) : jsToRoutes (routesToJs rs) = some rs := by
  simp only [routesToJs, jsToRoutes,
    decodeList_map_some jsToRoute routeToJs jsToRoute_routeToJs]

/-- C9: the record/stop toggle only flips the recording flag: the saved
collection, the in-progress route with all captured waypoints, the
selection, and the persisted value are all unchanged. -/
theorem toggleRecording_frame (s : AppState) :
    (toggleRecording s).isRecording = !s.isRecording ∧
    (toggleRecording s).routes = s.routes ∧
    (toggleRecording s).currentRoute = s.currentRoute ∧
    (toggleRecording s).selectedRoute = s.selectedRoute ∧
    persistedValue (toggleRecording s) = persistedValue s :=
  ⟨rfl, rfl, rfl, rfl, rfl⟩

/-- C10: `deleteRoute(id)` sets the selected-route pointer to none
unconditionally — for every state and every id, matching a saved route or
not, whatever was selected. -/
theorem deleteRoute_clears_selection (i : Nat) (s : AppState) :
    (handleDeleteRoute i s).selectedRoute = none := rfl
